import Mathlib

/-!
Shallow embedding of the downtime-interval aggregation engine of
`src/server/client.js` (`sendDowntimeStats` and its inner `formatTime`).

Modelling conventions:
* Timestamps are absolute times in seconds, as integers (`Int`).  The
  JavaScript code computes durations as
  `(new Date(upTime) - new Date(downTime)) / 1000`, i.e. a possibly negative
  number of seconds; we keep `Int` so that subtraction is exact.
* A heartbeat row carries a `status` column (`0` = down, `1` = up, other
  values such as `2` = pending exist in the database); we model it as `Nat`.
* The SQL range query
  `SELECT * FROM heartbeat WHERE monitor_id = ? AND time >= ? AND time <= ?
   ORDER BY time ASC`
  is modelled as filtering a per-monitor store (assumed time-ascending) by the
  inclusive window bounds.
* `Promise.all(monitorList.map(...))` runs one task per monitor; each task
  pushes its results into the shared arrays `downtimeStats` /
  `totalDowntimeStats` synchronously after its single `await`, so the shared
  arrays receive each monitor's block contiguously, in the order in which the
  fetches complete.  The completion order is the model's explicit parameter.
-/

/-- Row of the `monitor` table used by the pass: `SELECT id, name, url FROM monitor`. -/
structure Monitor where
  id : Nat
  name : String
  url : String
deriving DecidableEq, Repr

/-- Row of the `heartbeat` table as used by the fold: a timestamp and a status. -/
structure Heartbeat where
  time : Int
  status : Nat
deriving DecidableEq, Repr

/-- Object pushed onto `downtimeStats` for each closed or synthesized interval. -/
structure DowntimeInterval where
  monitor_id : Nat
  monitor_name : String
  monitor_url : String
  downTime : Int
  upTime : Int
  duration : String
deriving DecidableEq, Repr

/-- Object pushed onto `totalDowntimeStats` for each monitor; the code stores the
formatted total under the field name `downTime`. -/
structure TotalDowntimeRec where
  monitor_id : Nat
  monitor_name : String
  monitor_url : String
  downTime : String
deriving DecidableEq, Repr

/-- JavaScript `String(n).padStart(2, '0')`: pad on the left with zeros up to
length 2. -/
def padStart2 (s : String) : String :=
  if s.length = 0 then "00"
  else if s.length = 1 then "0" ++ s
  else s

/-- Hour component of `formatTime`: `Math.floor(time / 3600)`. -/
def hoursPart (time : Int) : Int := time.fdiv 3600

/-- Minute component of `formatTime`: `Math.floor((time % 3600) / 60)`
(JavaScript `%` is truncating remainder, `Math.floor` of the real quotient is
floor division). -/
def minutesPart (time : Int) : Int := (time.tmod 3600).fdiv 60

/-- Second component of `formatTime`: `Math.floor(time % 60)` (for integral
input `Math.floor` is the identity on `time % 60`). -/
def secondsPart (time : Int) : Int := time.tmod 60

/-- The inner `formatTime` helper of `sendDowntimeStats`:
turns a number of seconds into an `HH:MM:SS` string. -/
def formatTime (time : Int) : String :=
  padStart2 (toString (hoursPart time)) ++ ":" ++
    padStart2 (toString (minutesPart time)) ++ ":" ++
    padStart2 (toString (secondsPart time))

/-- The mutable state of the per-monitor `heartbeats.forEach` loop:
`isDown`, `downTime` (a nullable timestamp) and `totalDowntime`, together with
the interval objects this monitor has pushed so far (the pushes to the shared
`downtimeStats` array, which within one monitor's task happen in loop order). -/
structure FoldState where
  isDown : Bool
  downTime : Option Int
  totalDowntime : Int
  downtimeStats : List DowntimeInterval
deriving DecidableEq, Repr

/-- Initial loop state: `isDown = false`, `downTime = null`, `totalDowntime = 0`. -/
def initState : FoldState :=
  { isDown := false, downTime := none, totalDowntime := 0, downtimeStats := [] }

/-- The interval object pushed onto `downtimeStats` (both push sites build the
same shape: monitor metadata, the interval bounds, and the formatted
`duration` of `upT - dt` seconds). -/
def mkInterval (m : Monitor) (dt upT : Int) : DowntimeInterval :=
  { monitor_id := m.id, monitor_name := m.name, monitor_url := m.url,
    downTime := dt, upTime := upT, duration := formatTime (upT - dt) }

/-- One iteration of the `heartbeats.forEach(beat => ...)` loop body.  The body
is two consecutive (non-exclusive) `if` statements:
`if (beat.status === 0 && !isDown)` opens an interval, and
`if (isDown && beat.status === 1)` closes one, computing
`(new Date(upTime) - new Date(downTime)) / 1000` seconds
(`new Date(null)` is the epoch, hence `Option.getD dt 0`). -/
def processBeat (m : Monitor) (s : FoldState) (beat : Heartbeat) : FoldState :=
  let s1 :=
    if beat.status = 0 ∧ s.isDown = false then
      { s with isDown := true, downTime := some beat.time }
    else s
  if s1.isDown = true ∧ beat.status = 1 then
    let dt := s1.downTime.getD 0
    let diff := beat.time - dt
    { s1 with
      isDown := false
      downTime := none
      totalDowntime := s1.totalDowntime + diff
      downtimeStats := s1.downtimeStats ++ [mkInterval m dt beat.time] }
  else s1

/-- The whole `forEach` loop over the fetched heartbeats. -/
def runFold (m : Monitor) (hbs : List Heartbeat) : FoldState :=
  hbs.foldl (processBeat m) initState

/-- The per-monitor computation after the fetch: run the loop, then the
`if (isDown)` epilogue synthesizing a final interval closed at `endTime`.
Returns the interval objects this monitor pushes and its `totalDowntime`
in seconds (the number later formatted into the monitor's total record). -/
def monitorStats (m : Monitor) (endTime : Int) (hbs : List Heartbeat) :
    List DowntimeInterval × Int :=
  let s := runFold m hbs
  if s.isDown = true then
    let dt := s.downTime.getD 0
    let diff := endTime - dt
    (s.downtimeStats ++ [mkInterval m dt endTime], s.totalDowntime + diff)
  else (s.downtimeStats, s.totalDowntime)

/-- The object pushed onto `totalDowntimeStats` for monitor `m` whose loop
accumulated `total` seconds of downtime. -/
def totalRec (m : Monitor) (total : Int) : TotalDowntimeRec :=
  { monitor_id := m.id, monitor_name := m.name, monitor_url := m.url,
    downTime := formatTime total }

/-- The heartbeat range query for one monitor:
`time >= startTime AND time <= endTime` (inclusive bounds) against the
per-monitor store, which is assumed already ascending by time
(`ORDER BY time ASC`) — filtering preserves that order. -/
def rangeQuery (store : Nat → List Heartbeat) (id : Nat)
    (startTime endTime : Int) : List Heartbeat :=
  (store id).filter (fun b => decide (startTime ≤ b.time ∧ b.time ≤ endTime))

/-- The whole pass with an explicit fetch-completion order: `completion` lists
the monitors in the order their `await R.getAll(...)` resolved (a permutation
of the monitor list).  Each monitor's task then synchronously appends its
interval objects and its total record to the shared arrays, so the shared
arrays are built by folding over the completion order.  The emitted payload is
`{ downtimeStats, totalDowntime }`. -/
def sendDowntimeStatsOrd (completion : List Monitor)
    (store : Nat → List Heartbeat) (startTime endTime : Int) :
    List DowntimeInterval × List TotalDowntimeRec :=
  completion.foldl
    (fun acc m =>
      let r := monitorStats m endTime (rangeQuery store m.id startTime endTime)
      (acc.1 ++ r.1, acc.2 ++ [totalRec m r.2]))
    ([], [])

/-- The pass when the fetches happen to complete in listing order (one possible
schedule of `Promise.all`).  There is no window validation anywhere on this
path: the function is total in `startTime` and `endTime` and always emits. -/
def sendDowntimeStats (monitorList : List Monitor)
    (store : Nat → List Heartbeat) (startTime endTime : Int) :
    List DowntimeInterval × List TotalDowntimeRec :=
  sendDowntimeStatsOrd monitorList store startTime endTime

/-- Ordering relation between consecutive emitted intervals of one monitor:
strictly increasing `downTime` and `upTime` at most the next `downTime`. -/
def intervalOrder (p q : DowntimeInterval) : Prop :=
  p.downTime < q.downTime ∧ p.upTime ≤ q.downTime

instance : DecidableRel intervalOrder := fun p q => by
  unfold intervalOrder; infer_instance

/-- Sum of the durations, in seconds, of a list of intervals
(`upTime - downTime` for each). -/
def sumDurations (l : List DowntimeInterval) : Int :=
  (l.map (fun iv => iv.upTime - iv.downTime)).sum

/-- Concrete fixture: a monitor row. -/
def monW : Monitor := ⟨1, "web", "http://w"⟩

/-- Concrete fixture: a second monitor row. -/
def monW2 : Monitor := ⟨2, "api", "http://a"⟩

/-- Concrete fixture: a down observation, an up observation, then a trailing
down observation (the window will end mid-outage). -/
def hbsW : List Heartbeat := [⟨600, 0⟩, ⟨1500, 1⟩, ⟨3000, 0⟩]

/-- Concrete fixture: a store whose every monitor has only up observations. -/
def storeUpW : Nat → List Heartbeat := fun _ => [⟨5, 1⟩, ⟨9, 1⟩]

/-- Concrete fixture: a store whose every monitor has one down observation. -/
def storeDownW : Nat → List Heartbeat := fun _ => [⟨3, 0⟩]

/-- Invariant of the loop state relative to a bound `t` lying strictly below
every heartbeat still to be processed: the pushed intervals are ordered and
non-overlapping, each has positive duration and closes by `t`, and an open
outage started at or before `t` and after every pushed interval closed. -/
def stateInv (s : FoldState) (t : Int) : Prop :=
  List.Chain' intervalOrder s.downtimeStats ∧
  (∀ iv ∈ s.downtimeStats, iv.downTime < iv.upTime ∧ iv.upTime ≤ t) ∧
  (s.isDown = true → ∃ d, s.downTime = some d ∧ d ≤ t ∧
    ∀ iv ∈ s.downtimeStats, iv.upTime ≤ d)

/-- Invariant used for the first-observation-down analysis: either nothing has
been pushed yet and the outage opened at `t0` is still pending, or the first
pushed interval starts at `t0`. -/
def headInv (t0 : Int) (s : FoldState) : Prop :=
  (s.downtimeStats = [] ∧ s.isDown = true ∧ s.downTime = some t0) ∨
  (∃ iv l, s.downtimeStats = iv :: l ∧ iv.downTime = t0)

section Lemmas

variable {m : Monitor} {s : FoldState} {b : Heartbeat}

/-- A beat whose status is neither 0 (down) nor 1 (up) triggers neither branch
of the loop body. -/
theorem processBeat_other (h0 : b.status ≠ 0) (h1 : b.status ≠ 1) :
    processBeat m s b = s := by
  unfold processBeat
  simp [h0, h1]

/-- A down beat while up opens an interval. -/
theorem processBeat_open (h0 : b.status = 0) (hd : s.isDown = false) :
    processBeat m s b = { s with isDown := true, downTime := some b.time } := by
  unfold processBeat
  simp [h0, hd]

/-- A down beat while already down is a no-op. -/
theorem processBeat_down_down (h0 : b.status = 0) (hd : s.isDown = true) :
    processBeat m s b = s := by
  unfold processBeat
  simp [h0, hd]

/-- An up beat while up is a no-op. -/
theorem processBeat_up_up (h1 : b.status = 1) (hd : s.isDown = false) :
    processBeat m s b = s := by
  unfold processBeat
  simp [h1, hd]

/-- An up beat while down closes the open interval. -/
theorem processBeat_close (h1 : b.status = 1) (hd : s.isDown = true) :
    processBeat m s b =
      { isDown := false
        downTime := none
        totalDowntime := s.totalDowntime + (b.time - s.downTime.getD 0)
        downtimeStats := s.downtimeStats ++
          [mkInterval m (s.downTime.getD 0) b.time] } := by
  unfold processBeat
  simp [h1, hd]

/-- Any down beat leaves the loop in the down state. -/
theorem processBeat_isDown_of_status0 (h0 : b.status = 0) :
    (processBeat m s b).isDown = true := by
  cases hd : s.isDown
  · rw [processBeat_open h0 hd]
  · rw [processBeat_down_down h0 hd, hd]

/-- The loop body only ever appends to the pushed-interval list. -/
theorem processBeat_stats_append :
    ∃ l, (processBeat m s b).downtimeStats = s.downtimeStats ++ l := by
  by_cases h0 : b.status = 0
  · cases hd : s.isDown
    · rw [processBeat_open h0 hd]
      exact ⟨[], by simp⟩
    · rw [processBeat_down_down h0 hd]
      exact ⟨[], by simp⟩
  · by_cases h1 : b.status = 1
    · cases hd : s.isDown
      · rw [processBeat_up_up h1 hd]
        exact ⟨[], by simp⟩
      · rw [processBeat_close h1 hd]
        exact ⟨_, rfl⟩
    · rw [processBeat_other h0 h1]
      exact ⟨[], by simp⟩

end Lemmas

section EpilogueLemmas

variable {m : Monitor} {endTime : Int} {hbs : List Heartbeat}

/-- Epilogue when the window ends mid-outage. -/
theorem monitorStats_of_isDown (hd : (runFold m hbs).isDown = true) :
    monitorStats m endTime hbs =
      ((runFold m hbs).downtimeStats ++
         [mkInterval m ((runFold m hbs).downTime.getD 0) endTime],
       (runFold m hbs).totalDowntime +
         (endTime - (runFold m hbs).downTime.getD 0)) := by
  unfold monitorStats
  simp [hd]

/-- Epilogue when the loop ends in the up state. -/
theorem monitorStats_of_up (hd : (runFold m hbs).isDown = false) :
    monitorStats m endTime hbs =
      ((runFold m hbs).downtimeStats, (runFold m hbs).totalDowntime) := by
  unfold monitorStats
  simp [hd]

end EpilogueLemmas

theorem sumDurations_append (l1 l2 : List DowntimeInterval) :
    sumDurations (l1 ++ l2) = sumDurations l1 + sumDurations l2 := by
  unfold sumDurations
  rw [List.map_append, List.sum_append]

section SumInvariant

variable {m : Monitor} {s : FoldState} {b : Heartbeat}

/-- Each loop step adds the duration of any interval it pushes both to the
pushed list and to `totalDowntime`, keeping them in sync. -/
theorem processBeat_total_sum
    (h : s.totalDowntime = sumDurations s.downtimeStats) :
    (processBeat m s b).totalDowntime =
      sumDurations (processBeat m s b).downtimeStats := by
  by_cases h0 : b.status = 0
  · cases hd : s.isDown
    · rw [processBeat_open h0 hd]; exact h
    · rw [processBeat_down_down h0 hd]; exact h
  · by_cases h1 : b.status = 1
    · cases hd : s.isDown
      · rw [processBeat_up_up h1 hd]; exact h
      · rw [processBeat_close h1 hd]
        simp [sumDurations_append, sumDurations, mkInterval, h]
    · rw [processBeat_other h0 h1]; exact h

theorem foldl_total_sum (hbs : List Heartbeat) :
    ∀ s : FoldState, s.totalDowntime = sumDurations s.downtimeStats →
      (hbs.foldl (processBeat m) s).totalDowntime =
        sumDurations (hbs.foldl (processBeat m) s).downtimeStats := by
  induction hbs with
  | nil => intro s h; exact h
  | cons b rest ih =>
      intro s h
      exact ih (processBeat m s b) (processBeat_total_sum h)

/-- After the epilogue, the per-monitor total in seconds is exactly the sum of
the durations of the emitted intervals. -/
theorem monitorStats_total_sum (m : Monitor) (endTime : Int)
    (hbs : List Heartbeat) :
    (monitorStats m endTime hbs).2 = sumDurations (monitorStats m endTime hbs).1 := by
  have hsync : (runFold m hbs).totalDowntime =
      sumDurations (runFold m hbs).downtimeStats :=
    foldl_total_sum hbs initState (by simp [initState, sumDurations])
  by_cases hd : (runFold m hbs).isDown = true
  · rw [monitorStats_of_isDown hd]
    simp [sumDurations_append, sumDurations, mkInterval, hsync]
  · rw [monitorStats_of_up (by simpa using hd)]
    exact hsync

end SumInvariant

theorem stateInv_initState (t : Int) : stateInv initState t := by
  refine ⟨List.chain'_nil, ?_, ?_⟩ <;> simp [initState]

theorem stateInv_step {m : Monitor} {s : FoldState} {b : Heartbeat} {t : Int}
    (hinv : stateInv s t) (hb : t < b.time) :
    stateInv (processBeat m s b) b.time := by
  obtain ⟨hchain, hbound, hdown⟩ := hinv
  by_cases h0 : b.status = 0
  · cases hd : s.isDown
    · rw [processBeat_open h0 hd]
      refine ⟨hchain, ?_, ?_⟩
      · intro iv hiv
        exact ⟨(hbound iv hiv).1, (hbound iv hiv).2.trans hb.le⟩
      · intro _
        exact ⟨b.time, rfl, le_refl _,
          fun iv hiv => (hbound iv hiv).2.trans hb.le⟩
    · rw [processBeat_down_down h0 hd]
      obtain ⟨d, hdt, hdle, hup⟩ := hdown hd
      refine ⟨hchain, ?_, ?_⟩
      · intro iv hiv
        exact ⟨(hbound iv hiv).1, (hbound iv hiv).2.trans hb.le⟩
      · intro _
        exact ⟨d, hdt, hdle.trans hb.le, hup⟩
  · by_cases h1 : b.status = 1
    · cases hd : s.isDown
      · rw [processBeat_up_up h1 hd]
        refine ⟨hchain, ?_, ?_⟩
        · intro iv hiv
          exact ⟨(hbound iv hiv).1, (hbound iv hiv).2.trans hb.le⟩
        · intro habs
          rw [hd] at habs
          exact absurd habs (by decide)
      · rw [processBeat_close h1 hd]
        obtain ⟨d, hdt, hdle, hup⟩ := hdown hd
        rw [hdt]
        simp only [Option.getD_some]
        refine ⟨?_, ?_, ?_⟩
        · refine List.chain'_append.2 ⟨hchain, List.chain'_singleton _, ?_⟩
          intro x hx y hy
          have hxmem : x ∈ s.downtimeStats := by
            obtain ⟨hne, hxe⟩ := List.mem_getLast?_eq_getLast hx
            rw [hxe]
            exact List.getLast_mem hne
          have hy' : y = mkInterval m d b.time := by
            have := hy
            simp at this
            exact this.symm
          subst hy'
          refine ⟨lt_of_lt_of_le (hbound x hxmem).1 (hup x hxmem), hup x hxmem⟩
        · intro iv hiv
          rcases List.mem_append.1 hiv with hold | hnew
          · exact ⟨(hbound iv hold).1, (hbound iv hold).2.trans hb.le⟩
          · have hiv' : iv = mkInterval m d b.time := by
              simpa using hnew
            subst hiv'
            exact ⟨lt_of_le_of_lt hdle hb, le_refl _⟩
        · intro habs
          simp at habs
    · rw [processBeat_other h0 h1]
      refine ⟨hchain, ?_, ?_⟩
      · intro iv hiv
        exact ⟨(hbound iv hiv).1, (hbound iv hiv).2.trans hb.le⟩
      · intro hd
        obtain ⟨d, hdt, hdle, hup⟩ := hdown hd
        exact ⟨d, hdt, hdle.trans hb.le, hup⟩

theorem foldl_stateInv {m : Monitor} (hbs : List Heartbeat) :
    ∀ (s : FoldState) (t : Int), stateInv s t →
      List.Chain' (fun a b => a.time < b.time) hbs →
      (∀ x ∈ hbs.head?, t < x.time) →
      ∃ t', stateInv (hbs.foldl (processBeat m) s) t' := by
  induction hbs with
  | nil =>
      intro s t hinv _ _
      exact ⟨t, hinv⟩
  | cons b rest ih =>
      intro s t hinv hsort hhead
      have hbt : t < b.time := hhead b rfl
      obtain ⟨hhd, hrest⟩ := List.chain'_cons'.1 hsort
      exact ih (processBeat m s b) b.time (stateInv_step hinv hbt) hrest hhd

theorem runFold_stateInv {m : Monitor} (hbs : List Heartbeat)
    (hsort : List.Chain' (fun a b => a.time < b.time) hbs) :
    ∃ t', stateInv (runFold m hbs) t' := by
  cases hbs with
  | nil => exact ⟨0, stateInv_initState 0⟩
  | cons b rest =>
      refine foldl_stateInv (b :: rest) initState (b.time - 1)
        (stateInv_initState _) hsort ?_
      intro x hx
      have hxb : x = b := by simpa using hx.symm
      subst hxb
      omega

/-- Main ordering result: on a time-ascending heartbeat list, the emitted
intervals (loop-closed plus the possible window-end interval) are chained by
`intervalOrder`. -/
theorem monitorStats_chain (m : Monitor) (endTime : Int)
    (hbs : List Heartbeat)
    (hsort : List.Chain' (fun a b => a.time < b.time) hbs) :
    List.Chain' intervalOrder (monitorStats m endTime hbs).1 := by
  obtain ⟨t, hchain, hbound, hdown⟩ := runFold_stateInv hbs hsort
  by_cases hd : (runFold m hbs).isDown = true
  · rw [monitorStats_of_isDown hd]
    obtain ⟨d, hdt, hdle, hup⟩ := hdown hd
    rw [hdt]
    simp only [Option.getD_some]
    refine List.chain'_append.2 ⟨hchain, List.chain'_singleton _, ?_⟩
    intro x hx y hy
    have hxmem : x ∈ (runFold m hbs).downtimeStats := by
      obtain ⟨hne, hxe⟩ := List.mem_getLast?_eq_getLast hx
      rw [hxe]
      exact List.getLast_mem hne
    have hy' : y = mkInterval m d endTime := by
      have := hy
      simp at this
      exact this.symm
    subst hy'
    exact ⟨lt_of_lt_of_le (hbound x hxmem).1 (hup x hxmem), hup x hxmem⟩
  · rw [monitorStats_of_up (by simpa using hd)]
    exact hchain

section PassLemmas

variable {store : Nat → List Heartbeat} {startTime endTime : Int}

theorem sendDowntimeStatsOrd_foldl (store : Nat → List Heartbeat)
    (startTime endTime : Int) :
    ∀ (c : List Monitor) (acc : List DowntimeInterval × List TotalDowntimeRec),
      c.foldl
        (fun acc m =>
          let r := monitorStats m endTime (rangeQuery store m.id startTime endTime)
          (acc.1 ++ r.1, acc.2 ++ [totalRec m r.2]))
        acc =
      (acc.1 ++ (c.map (fun m =>
          (monitorStats m endTime (rangeQuery store m.id startTime endTime)).1)).flatten,
       acc.2 ++ c.map (fun m =>
          totalRec m (monitorStats m endTime (rangeQuery store m.id startTime endTime)).2)) := by
  intro c
  induction c with
  | nil => intro acc; simp
  | cons m rest ih =>
      intro acc
      rw [List.foldl_cons, ih]
      simp

/-- The shared arrays at the end of the pass hold, per completed monitor in
completion order, that monitor's interval block and exactly one total record. -/
theorem sendDowntimeStatsOrd_eq (completion : List Monitor)
    (store : Nat → List Heartbeat) (startTime endTime : Int) :
    sendDowntimeStatsOrd completion store startTime endTime =
      ((completion.map (fun m =>
          (monitorStats m endTime (rangeQuery store m.id startTime endTime)).1)).flatten,
       completion.map (fun m =>
          totalRec m (monitorStats m endTime (rangeQuery store m.id startTime endTime)).2)) := by
  unfold sendDowntimeStatsOrd
  rw [sendDowntimeStatsOrd_foldl]
  simp

/-- An inverted window makes every range query empty. -/
theorem rangeQuery_empty (id : Nat) (h : endTime < startTime) :
    rangeQuery store id startTime endTime = [] := by
  unfold rangeQuery
  rw [List.filter_eq_nil_iff]
  intro b _
  simp only [decide_eq_true_eq, not_and, not_le]
  intro hs
  omega

theorem monitorStats_nil (m : Monitor) (endTime : Int) :
    monitorStats m endTime [] = ([], 0) := by
  have h : (runFold m ([] : List Heartbeat)).isDown = false := rfl
  rw [monitorStats_of_up h]
  rfl

/-- A heartbeat list of all-up observations leaves the loop state untouched. -/
theorem runFold_all_up (m : Monitor) (hbs : List Heartbeat)
    (h : ∀ b ∈ hbs, b.status = 1) :
    runFold m hbs = initState := by
  unfold runFold
  induction hbs with
  | nil => rfl
  | cons b rest ih =>
      rw [List.foldl_cons,
        processBeat_up_up (h b (List.mem_cons_self b rest)) rfl]
      exact ih (fun x hx => h x (List.mem_cons_of_mem b hx))

/-- If the last processed heartbeat is a down observation, the loop ends in
the down state. -/
theorem runFold_append_status0 (m : Monitor) (l : List Heartbeat)
    (b : Heartbeat) (h0 : b.status = 0) :
    (runFold m (l ++ [b])).isDown = true := by
  unfold runFold
  rw [List.foldl_append, List.foldl_cons]
  exact processBeat_isDown_of_status0 h0

end PassLemmas

section HeadInvariant

variable {m : Monitor} {t0 : Int}

theorem headInv_step {s : FoldState} {b : Heartbeat} (h : headInv t0 s) :
    headInv t0 (processBeat m s b) := by
  rcases h with ⟨hst, hd, hdt⟩ | ⟨iv, l, hst, hdt⟩
  · by_cases h0 : b.status = 0
    · rw [processBeat_down_down h0 hd]
      exact Or.inl ⟨hst, hd, hdt⟩
    · by_cases h1 : b.status = 1
      · rw [processBeat_close h1 hd]
        right
        refine ⟨mkInterval m (s.downTime.getD 0) b.time, [], ?_, ?_⟩
        · rw [hst]
          rfl
        · rw [hdt]
          rfl
      · rw [processBeat_other h0 h1]
        exact Or.inl ⟨hst, hd, hdt⟩
  · obtain ⟨l2, hap⟩ := @processBeat_stats_append m s b
    right
    refine ⟨iv, l ++ l2, ?_, hdt⟩
    rw [hap, hst]
    simp

theorem foldl_headInv (hbs : List Heartbeat) :
    ∀ s : FoldState, headInv t0 s →
      headInv t0 (hbs.foldl (processBeat m) s) := by
  induction hbs with
  | nil => intro s h; exact h
  | cons b rest ih =>
      intro s h
      exact ih (processBeat m s b) (headInv_step h)

/-- If the first fetched observation is a down beat, the first emitted interval
opens exactly at that observation's timestamp. -/
theorem monitorStats_head (m : Monitor) (endTime : Int) (b : Heartbeat)
    (rest : List Heartbeat) (h0 : b.status = 0) :
    ∃ iv tl, (monitorStats m endTime (b :: rest)).1 = iv :: tl ∧
      iv.downTime = b.time := by
  have hstep : processBeat m initState b =
      { initState with isDown := true, downTime := some b.time } :=
    processBeat_open h0 rfl
  have hinv : headInv b.time (runFold m (b :: rest)) := by
    unfold runFold
    rw [List.foldl_cons]
    refine foldl_headInv rest _ ?_
    rw [hstep]
    exact Or.inl ⟨rfl, rfl, rfl⟩
  rcases hinv with ⟨hst, hd, hdt⟩ | ⟨iv, l, hst, hdt⟩
  · rw [monitorStats_of_isDown hd, hst, hdt]
    exact ⟨mkInterval m b.time endTime, [], rfl, rfl⟩
  · by_cases hd : (runFold m (b :: rest)).isDown = true
    · rw [monitorStats_of_isDown hd, hst]
      exact ⟨iv, l ++ [mkInterval m ((runFold m (b :: rest)).downTime.getD 0) endTime],
        by simp, hdt⟩
    · rw [monitorStats_of_up (by simpa using hd), hst]
      exact ⟨iv, l, rfl, hdt⟩

end HeadInvariant

/-- Two consecutive observations with the same status: the second one changes
nothing (down-after-down and up-after-up are no-transitions, and any other
repeated status touches neither branch). -/
theorem processBeat_same_status (m : Monitor) (s : FoldState)
    (b c : Heartbeat) (h : c.status = b.status) :
    processBeat m (processBeat m s b) c = processBeat m s b := by
  by_cases h0 : b.status = 0
  · exact processBeat_down_down (h.trans h0) (processBeat_isDown_of_status0 h0)
  · by_cases h1 : b.status = 1
    · have hc1 : c.status = 1 := h.trans h1
      cases hd : s.isDown
      · rw [processBeat_up_up h1 hd]
        exact processBeat_up_up hc1 hd
      · rw [processBeat_close h1 hd]
        exact processBeat_up_up hc1 rfl
    · have hc0 : c.status ≠ 0 := by rw [h]; exact h0
      have hc1 : c.status ≠ 1 := by rw [h]; exact h1
      rw [processBeat_other h0 h1, processBeat_other hc0 hc1]

/-- C1: for every entity and window, the sum of the durations (in seconds) of
the emitted downtime intervals equals the per-entity `totalDowntime` in
seconds — the value from which the entity's total record is formatted — and,
on a time-ascending observation sequence, the intervals are non-overlapping
and time-ordered (each next interval opens strictly later than, and no earlier
than the close of, the previous one). -/
theorem claim1_partition (m : Monitor) (endTime : Int) (hbs : List Heartbeat)
    (hsort : List.Chain' (fun a b => a.time < b.time) hbs) :
    sumDurations (monitorStats m endTime hbs).1 = (monitorStats m endTime hbs).2 ∧
    (totalRec m (monitorStats m endTime hbs).2).downTime =
      formatTime (monitorStats m endTime hbs).2 ∧
    List.Chain' intervalOrder (monitorStats m endTime hbs).1 :=
  ⟨(monitorStats_total_sum m endTime hbs).symm, rfl,
    monitorStats_chain m endTime hbs hsort⟩

theorem claim1_witness :
    List.Chain' (fun a b => a.time < b.time) hbsW ∧
    (sumDurations (monitorStats monW 3600 hbsW).1 = (monitorStats monW 3600 hbsW).2 ∧
     (totalRec monW (monitorStats monW 3600 hbsW).2).downTime =
       formatTime (monitorStats monW 3600 hbsW).2 ∧
     List.Chain' intervalOrder (monitorStats monW 3600 hbsW).1) := by
  have hs : List.Chain' (fun a b => a.time < b.time) hbsW := by
    unfold hbsW
    rw [List.chain'_cons, List.chain'_cons]
    exact ⟨by decide, by decide, List.chain'_singleton _⟩
  exact ⟨hs, claim1_partition monW 3600 hbsW hs⟩

/-- C2 counterexample: with `startTime = 10 > endTime = 5` and a monitor whose
store holds an (out-of-range) down observation, the pass is not rejected: it
runs to completion and emits a result — an empty interval list and a zero
total record — instead of surfacing a validation error. -/
theorem claim2_counterexample :
    sendDowntimeStats [monW] storeDownW 10 5 =
      ([], [⟨1, "web", "http://w", "00:00:00"⟩]) := by
  decide

/-- C2 amended: `sendDowntimeStats` performs no window validation.  A call
with `startTime > endTime` is not rejected before the fetches: the pass
proceeds, every range query comes back empty, and a result is emitted — no
intervals and one `00:00:00` total record per listed monitor. -/
theorem claim2_amended (monitorList : List Monitor)
    (store : Nat → List Heartbeat) (startTime endTime : Int)
    (h : endTime < startTime) :
    sendDowntimeStats monitorList store startTime endTime =
      ([], monitorList.map (fun m => ⟨m.id, m.name, m.url, "00:00:00"⟩)) := by
  have hq : ∀ mm : Monitor, rangeQuery store mm.id startTime endTime = [] :=
    fun mm => rangeQuery_empty mm.id h
  have hf : formatTime 0 = "00:00:00" := by decide
  unfold sendDowntimeStats
  rw [sendDowntimeStatsOrd_eq]
  simp only [Prod.mk.injEq]
  constructor
  · simp [hq, monitorStats_nil]
  · simp [hq, monitorStats_nil, totalRec, hf]

theorem claim2_amended_witness :
    (5 : Int) < 10 ∧
    sendDowntimeStats [monW] storeDownW 10 5 =
      ([], [monW].map (fun m => ⟨m.id, m.name, m.url, "00:00:00"⟩)) :=
  ⟨by decide, claim2_amended [monW] storeDownW 10 5 (by decide)⟩

/-- C3 counterexample: two runs over the same two listed monitors whose fetches
complete in opposite orders produce different output sequences — the shared
arrays are filled in completion order, not in the stable listing order, so the
emitted total-record sequence is permuted with the completion order. -/
theorem claim3_counterexample :
    sendDowntimeStatsOrd [monW, monW2] (fun _ => []) 0 100 ≠
      sendDowntimeStatsOrd [monW2, monW] (fun _ => []) 0 100 := by
  decide

/-- C3 amended: the emitted result lists each monitor's interval block
contiguously (intra-entity chronological order preserved) and exactly one
total record per monitor, but in fetch-completion order: the output is the
concatenation, over the completion order, of the per-monitor results, so runs
whose fetches complete in different orders may emit differently-ordered
sequences (as the counterexample shows), while each monitor's own content is
independent of the completion order. -/
theorem claim3_amended (completion : List Monitor)
    (store : Nat → List Heartbeat) (startTime endTime : Int) :
    sendDowntimeStatsOrd completion store startTime endTime =
      ((completion.map (fun m =>
          (monitorStats m endTime (rangeQuery store m.id startTime endTime)).1)).flatten,
       completion.map (fun m =>
          totalRec m (monitorStats m endTime (rangeQuery store m.id startTime endTime)).2)) :=
  sendDowntimeStatsOrd_eq completion store startTime endTime

/-- C4: when the last in-range observation is a down beat the loop ends in the
down state, exactly one final interval is synthesized and appended, its
closing time (`upTime`) is `endTime`, and its duration
`endTime - downAt` is added to the per-monitor total. -/
theorem claim4_open_ended (m : Monitor) (endTime : Int) (l : List Heartbeat)
    (b : Heartbeat) (h0 : b.status = 0) :
    (runFold m (l ++ [b])).isDown = true ∧
    (monitorStats m endTime (l ++ [b])).1 =
      (runFold m (l ++ [b])).downtimeStats ++
        [mkInterval m ((runFold m (l ++ [b])).downTime.getD 0) endTime] ∧
    (mkInterval m ((runFold m (l ++ [b])).downTime.getD 0) endTime).upTime =
      endTime ∧
    (monitorStats m endTime (l ++ [b])).2 =
      (runFold m (l ++ [b])).totalDowntime +
        (endTime - (runFold m (l ++ [b])).downTime.getD 0) := by
  have hd := runFold_append_status0 m l b h0
  have hms := @monitorStats_of_isDown m endTime (l ++ [b]) hd
  refine ⟨hd, ?_, rfl, ?_⟩
  · rw [hms]
  · rw [hms]

theorem claim4_witness :
    (Heartbeat.mk 8 0).status = 0 ∧
    ((runFold monW ([⟨5, 1⟩] ++ [⟨8, 0⟩])).isDown = true ∧
     (monitorStats monW 20 ([⟨5, 1⟩] ++ [⟨8, 0⟩])).1 =
       (runFold monW ([⟨5, 1⟩] ++ [⟨8, 0⟩])).downtimeStats ++
         [mkInterval monW
           ((runFold monW ([⟨5, 1⟩] ++ [⟨8, 0⟩])).downTime.getD 0) 20] ∧
     (mkInterval monW
         ((runFold monW ([⟨5, 1⟩] ++ [⟨8, 0⟩])).downTime.getD 0) 20).upTime = 20 ∧
     (monitorStats monW 20 ([⟨5, 1⟩] ++ [⟨8, 0⟩])).2 =
       (runFold monW ([⟨5, 1⟩] ++ [⟨8, 0⟩])).totalDowntime +
         (20 - (runFold monW ([⟨5, 1⟩] ++ [⟨8, 0⟩])).downTime.getD 0)) :=
  ⟨rfl, claim4_open_ended monW 20 [⟨5, 1⟩] ⟨8, 0⟩ rfl⟩

/-- C5: on an observation sequence strictly ascending by timestamp, the
emitted intervals of the monitor are strictly increasing in `downTime`, and
every adjacent pair satisfies `upTime ≤` the next `downTime`. -/
theorem claim5_nonoverlap (m : Monitor) (endTime : Int) (hbs : List Heartbeat)
    (hsort : List.Chain' (fun a b => a.time < b.time) hbs) :
    List.Chain' intervalOrder (monitorStats m endTime hbs).1 :=
  monitorStats_chain m endTime hbs hsort

theorem claim5_witness :
    List.Chain' (fun a b => a.time < b.time) hbsW ∧
    List.Chain' intervalOrder (monitorStats monW2 4000 hbsW).1 := by
  have hs : List.Chain' (fun a b => a.time < b.time) hbsW := by
    unfold hbsW
    rw [List.chain'_cons, List.chain'_cons]
    exact ⟨by decide, by decide, List.chain'_singleton _⟩
  exact ⟨hs, claim5_nonoverlap monW2 4000 hbsW hs⟩

/-- C6: inserting, immediately after an observation, a second observation with
the same status (in particular an exact duplicate) changes neither the emitted
interval list nor the total: down-after-down and up-after-up cause no
transition and no emission. -/
theorem claim6_duplicate (m : Monitor) (endTime : Int) (l1 l2 : List Heartbeat)
    (b dup : Heartbeat) (h : dup.status = b.status) :
    monitorStats m endTime (l1 ++ b :: dup :: l2) =
      monitorStats m endTime (l1 ++ b :: l2) := by
  have hfold : runFold m (l1 ++ b :: dup :: l2) = runFold m (l1 ++ b :: l2) := by
    unfold runFold
    simp only [List.foldl_append, List.foldl_cons]
    rw [processBeat_same_status m _ b dup h]
  unfold monitorStats
  rw [hfold]

theorem claim6_witness :
    (Heartbeat.mk 300 0).status = (Heartbeat.mk 300 0).status ∧
    monitorStats monW 3600 ([] ++ ⟨300, 0⟩ :: ⟨300, 0⟩ :: [⟨1200, 1⟩]) =
      monitorStats monW 3600 ([] ++ ⟨300, 0⟩ :: [⟨1200, 1⟩]) :=
  ⟨rfl, claim6_duplicate monW 3600 [] [⟨1200, 1⟩] ⟨300, 0⟩ ⟨300, 0⟩ rfl⟩

/-- C7: when the first in-range observation is a down beat (the entity may have
gone down before the window), the first emitted interval opens at that
observation's timestamp — not at the window start, so downtime that began
before the window is under-reported whenever the two differ. -/
theorem claim7_first_down (m : Monitor) (startTime endTime : Int)
    (b : Heartbeat) (rest : List Heartbeat) (h0 : b.status = 0) :
    ∃ iv tl, (monitorStats m endTime (b :: rest)).1 = iv :: tl ∧
      iv.downTime = b.time ∧
      (startTime ≠ b.time → iv.downTime ≠ startTime) := by
  obtain ⟨iv, tl, hst, hdt⟩ := monitorStats_head m endTime b rest h0
  refine ⟨iv, tl, hst, hdt, ?_⟩
  intro hne
  rw [hdt]
  exact fun hh => hne hh.symm

theorem claim7_witness :
    (Heartbeat.mk 50 0).status = 0 ∧
    ∃ iv tl, (monitorStats monW 3600 [⟨50, 0⟩]).1 = iv :: tl ∧
      iv.downTime = 50 ∧ ((0 : Int) ≠ 50 → iv.downTime ≠ 0) :=
  ⟨rfl, claim7_first_down monW 0 3600 ⟨50, 0⟩ [] rfl⟩

/-- C8: a monitor whose in-range observations are all up (in particular a
monitor with no in-range observations at all) gets an empty interval list and
a `00:00:00` total record, and the emitted totals sequence still carries
exactly one record per listed monitor. -/
theorem claim8_zero (monitorList : List Monitor)
    (store : Nat → List Heartbeat) (startTime endTime : Int) (m : Monitor)
    (hup : ∀ b ∈ rangeQuery store m.id startTime endTime, b.status = 1) :
    (monitorStats m endTime (rangeQuery store m.id startTime endTime)).1 = [] ∧
    totalRec m (monitorStats m endTime (rangeQuery store m.id startTime endTime)).2 =
      ⟨m.id, m.name, m.url, "00:00:00"⟩ ∧
    (sendDowntimeStats monitorList store startTime endTime).2 =
      monitorList.map (fun mm =>
        totalRec mm (monitorStats mm endTime (rangeQuery store mm.id startTime endTime)).2) := by
  have hrf := runFold_all_up m (rangeQuery store m.id startTime endTime) hup
  have hms : monitorStats m endTime (rangeQuery store m.id startTime endTime) =
      ([], 0) := by
    rw [monitorStats_of_up (by rw [hrf]; rfl), hrf]
    rfl
  refine ⟨by rw [hms], ?_, ?_⟩
  · rw [hms]
    show totalRec m 0 = _
    unfold totalRec
    have hf : formatTime 0 = "00:00:00" := by decide
    rw [hf]
  · unfold sendDowntimeStats
    rw [sendDowntimeStatsOrd_eq]

theorem claim8_witness :
    (∀ b ∈ rangeQuery storeUpW monW.id 0 100, b.status = 1) ∧
    ((monitorStats monW 100 (rangeQuery storeUpW monW.id 0 100)).1 = [] ∧
     totalRec monW (monitorStats monW 100 (rangeQuery storeUpW monW.id 0 100)).2 =
       ⟨monW.id, monW.name, monW.url, "00:00:00"⟩ ∧
     (sendDowntimeStats [monW] storeUpW 0 100).2 =
       [monW].map (fun mm =>
         totalRec mm (monitorStats mm 100 (rangeQuery storeUpW mm.id 0 100)).2)) :=
  ⟨by decide, claim8_zero [monW] storeUpW 0 100 monW (by decide)⟩

/-- C9: for every non-negative duration in seconds, the formatted string is the
hour, minute and second components zero-padded and colon-joined, where the
hour component is `floor(seconds / 3600)` with no day rollover (24 hours or
more keep accumulating in the hour component, e.g. `86400` seconds gives an
hour component of at least 24) and the minute and second components lie in
`0..59`. -/
theorem claim9_format (t : Int) (ht : 0 ≤ t) :
    formatTime t =
      padStart2 (toString (hoursPart t)) ++ ":" ++
        padStart2 (toString (minutesPart t)) ++ ":" ++
        padStart2 (toString (secondsPart t)) ∧
    hoursPart t = t.fdiv 3600 ∧
    (0 ≤ minutesPart t ∧ minutesPart t < 60) ∧
    (0 ≤ secondsPart t ∧ secondsPart t < 60) ∧
    (86400 ≤ t → 24 ≤ hoursPart t) := by
  refine ⟨rfl, rfl, ?_, ?_, ?_⟩
  · unfold minutesPart
    rw [Int.tmod_eq_emod ht (by norm_num), Int.fdiv_eq_ediv _ (by norm_num)]
    omega
  · unfold secondsPart
    rw [Int.tmod_eq_emod ht (by norm_num)]
    omega
  · intro h24
    unfold hoursPart
    rw [Int.fdiv_eq_ediv _ (by norm_num)]
    omega

theorem claim9_witness :
    (0 : Int) ≤ 90061 ∧
    (formatTime 90061 =
       padStart2 (toString (hoursPart 90061)) ++ ":" ++
         padStart2 (toString (minutesPart 90061)) ++ ":" ++
         padStart2 (toString (secondsPart 90061)) ∧
     hoursPart 90061 = (90061 : Int).fdiv 3600 ∧
     (0 ≤ minutesPart 90061 ∧ minutesPart 90061 < 60) ∧
     (0 ≤ secondsPart 90061 ∧ secondsPart 90061 < 60) ∧
     ((86400 : Int) ≤ 90061 → 24 ≤ hoursPart 90061)) :=
  ⟨by decide, claim9_format 90061 (by decide)⟩

/-- C10: an observation whose status is neither 0 (down) nor 1 (up) — e.g. a
pending or maintenance heartbeat — triggers neither branch of the loop body:
the whole fold state (`isDown`, `downTime`, `totalDowntime` and the pushed
intervals) is left unchanged, exactly like a repeat of the current state. -/
theorem claim10_ignored_status (m : Monitor) (s : FoldState) (b : Heartbeat)
    (h0 : b.status ≠ 0) (h1 : b.status ≠ 1) :
    processBeat m s b = s :=
  processBeat_other h0 h1

theorem claim10_witness :
    ((Heartbeat.mk 7 2).status ≠ 0 ∧ (Heartbeat.mk 7 2).status ≠ 1) ∧
    processBeat monW ⟨true, some 3, 5, []⟩ ⟨7, 2⟩ = ⟨true, some 3, 5, []⟩ :=
  ⟨⟨by decide, by decide⟩,
    claim10_ignored_status monW ⟨true, some 3, 5, []⟩ ⟨7, 2⟩
      (by decide) (by decide)⟩
